import Mathlib

/-!
# Verification of the `http` request-dispatch engine of sigs.k8s.io/release-utils

Shallow embedding of `http/agent.go` (the retrying single-request operations,
the group dispatch operations, the response reader and the writer router) and
of the configuration sharing in `NewAgent`/`With*`.

Conventions of the embedding:
* Go byte slices are `List Nat`; `nil` pointers/errors are `Option.none`.
* Durations (`time.Duration`) are `Int` nanoseconds.
* A Go panic (nil-pointer dereference) is modelled by an `Option.none` result
  of the function that would panic.
* The transport (`AgentImplementation`) is a parameter: for the retrying
  single-request operations it is a stream `Nat → Outcome` giving the outcome
  of the n-th attempt; for group operations it is a function of the url (and
  payload) since each member performs one call.
-/

namespace ReleaseUtilsHttp

/-- Go `error` values as seen by this package: `url.Error` values (matched by
`errors.As(err, &url.Error{})`), plain error strings, and wrapping via
`fmt.Errorf("...: %w", err)` which preserves the chain for `errors.As`. -/
inductive GoError where
  | urlError (msg : String)
  | plain (msg : String)
  | wrap (label : String) (inner : GoError)
deriving DecidableEq, Repr

/-- `errors.As(err, &url.Error{})`: true iff the unwrap chain reaches a `url.Error`. -/
def GoError.isUrlError : GoError → Bool
  | .urlError _ => true
  | .plain _ => false
  | .wrap _ inner => inner.isUrlError

/-- An `*http.Response` as used by this package: status code and text, the
request URL (`response.Request.URL`), the readable bytes of the body, and an
optional error the body reader yields after those bytes (a failing
`io.Copy`). -/
structure Response where
  statusCode : Int
  status : String
  requestURL : String
  body : List Nat
  bodyReadErr : Option GoError
deriving DecidableEq, Repr

/-- The `(*http.Response, error)` pair returned by one transport call. -/
abbrev Outcome := Option Response × Option GoError

/-- `agentOptions` (agent.go): the configurable bits of the agent.
Durations in nanoseconds. `Retries`/`MaxParallel` are Go `uint`. -/
structure agentOptions where
  FailOnHTTPError : Bool
  Retries : Nat
  Timeout : Int
  WaitTime : Int
  MaxWaitTime : Int
  PostContentType : String
  MaxParallel : Nat
deriving DecidableEq, Repr

/-- The package-level `defaultAgentOptions` record (agent.go). -/
def defaultAgentOptionsRecord : agentOptions :=
  { FailOnHTTPError := true
    Retries := 3
    Timeout := 3000000000
    WaitTime := 2000000000
    MaxWaitTime := 60000000000
    PostContentType := "application/octet-stream"
    MaxParallel := 5 }

/-- `shouldRetry(resp, err)` (agent.go): decides whether the retry loop goes
again. Returns `none` when the Go code would panic by dereferencing a nil
response (`resp.StatusCode` with `resp == nil`); otherwise
`some none` means "stop" (nil error) and `some (some e)` means "retry with
signal e" (non-nil error). Translated branch by branch from the source:
a non-nil error matching `url.Error` is returned as the retry signal; then
status 429, and then status 0 or (>= 500 and not 501), produce retry errors;
anything else returns nil. -/
def shouldRetry (resp : Option Response) (err : Option GoError) : Option (Option GoError) :=
  if (err.map GoError.isUrlError).getD false then
    some err
  else
    match resp with
    | none => none
    | some r =>
      if r.statusCode = 429 then
        some (some (.plain ("retry " ++ toString r.statusCode ++ ": " ++ r.status)))
      else if r.statusCode = 0 ∨ (500 ≤ r.statusCode ∧ r.statusCode ≠ 501) then
        some (some (.plain ("retry unexpected HTTP status " ++ toString r.statusCode ++ ": " ++ r.status)))
      else
        some none

/-- Modelled from the spec: the exponential backoff of the vendored retry
library that `retryRequest` configures (`retry.Delay(WaitTime)`,
`retry.MaxDelay(MaxWaitTime)`, `retry.DelayType(retry.BackOffDelay)`), per
§4.1: delay before the retry that follows attempt `n` is
`WaitTime * 2^n` capped at `MaxWaitTime` (nanoseconds). -/
def retryGoDelay (opts : agentOptions) (n : Nat) : Int :=
  min (opts.WaitTime * 2 ^ n) opts.MaxWaitTime

/-- Result of one `retryRequest`/`HeadRequest` run: the returned pair plus
the instrumentation the claims are about — how many transport calls were made
and which delays (ns) were slept between attempts, in order. -/
structure RetryResult where
  response : Option Response
  error : Option GoError
  calls : Nat
  sleeps : List Int
deriving DecidableEq, Repr

/-- Modelled from the spec: the attempt loop of the vendored retry library's
`Do` as configured by `retryRequest` (§4.2): call, classify via `shouldRetry`,
stop on nil classification, otherwise sleep `retryGoDelay` and go again while
attempts remain; after the final attempt the last response/error pair is
returned. `n` is the index of the current attempt, `fuel` the attempts left;
a `shouldRetry` panic propagates as `none`. -/
def retryDoAux (opts : agentOptions) (doF : Nat → Outcome) :
    Nat → List Int → Nat → Option RetryResult
  | n, sleeps, 0 =>
      some { response := none, error := some (.plain "retry: no attempts"),
             calls := n, sleeps := sleeps }
  | n, sleeps, fuel + 1 =>
      let out := doF n
      match shouldRetry out.1 out.2 with
      | none => none
      | some none =>
          some { response := out.1, error := none, calls := n + 1, sleeps := sleeps }
      | some (some e) =>
          if fuel = 0 then
            some { response := out.1, error := some e, calls := n + 1, sleeps := sleeps }
          else
            retryDoAux opts doF (n + 1) (sleeps ++ [retryGoDelay opts n]) fuel

/-- `retryRequest` (agent.go): with `Retries == 0` the request function is
called once, directly, with no classification; otherwise the retry loop runs
with `Attempts(Retries)` total attempts. Used by `GetRequest` and
`PostRequest`. -/
def retryRequest (opts : agentOptions) (doF : Nat → Outcome) : Option RetryResult :=
  if opts.Retries = 0 then
    let out := doF 0
    some { response := out.1, error := out.2, calls := 1, sleeps := [] }
  else
    retryDoAux opts doF 0 [] opts.Retries

/-- `GetRequest` (agent.go): a retrying GET; the transport stream gives the
outcome of `SendGetRequest` on each attempt. -/
def GetRequest (opts : agentOptions) (send : Nat → Outcome) : Option RetryResult :=
  retryRequest opts send

/-- `PostRequest` (agent.go): a retrying POST. -/
def PostRequest (opts : agentOptions) (send : Nat → Outcome) : Option RetryResult :=
  retryRequest opts send

/-- The sleep of one `HeadRequest` backoff round (agent.go): after `try`
calls the loop computes `waitTime := 2^try` (seconds), replaces it by
`MaxWaitTime.Seconds()` when it exceeds 60, and sleeps
`time.Duration(waitTime) * time.Second` — i.e. the truncated number of
seconds, here in nanoseconds. -/
def headDelay (opts : agentOptions) (t : Nat) : Int :=
  (if 60 < (2 : Int) ^ t then opts.MaxWaitTime.tdiv 1000000000 else 2 ^ t)
    * 1000000000

/-- The `for` loop of `HeadRequest` (agent.go): call `SendHeadRequest`,
increment `try`, return when the error is nil or `try >= Retries`, otherwise
sleep `headDelay` and go again. `t` is the number of calls already made;
the loop exits after at most `Retries` calls, so `fuel = Retries + 1` never
runs out. -/
def headRequestAux (opts : agentOptions) (send : Nat → Outcome) :
    Nat → List Int → Nat → RetryResult
  | t, sleeps, 0 => { response := none, error := none, calls := t, sleeps := sleeps }
  | t, sleeps, fuel + 1 =>
      let out := send t
      if out.2 = none ∨ opts.Retries ≤ t + 1 then
        { response := out.1, error := out.2, calls := t + 1, sleeps := sleeps }
      else
        headRequestAux opts send (t + 1) (sleeps ++ [headDelay opts (t + 1)]) fuel

/-- `HeadRequest` (agent.go): its own retry loop — it does not use
`retryRequest`/`shouldRetry`. -/
def HeadRequest (opts : agentOptions) (send : Nat → Outcome) : RetryResult :=
  headRequestAux opts send 0 [] (opts.Retries + 1)

/-- The HTTP-status error of `readResponse` (agent.go):
`fmt.Errorf("HTTP error %s for %s", response.Status, response.Request.URL)`. -/
def httpStatusError (r : Response) : GoError :=
  .plain ("HTTP error " ++ r.status ++ " for " ++ r.requestURL)

/-- `readResponse(response, w)` (agent.go): copy the body into the sink `w`
(`io.Copy` delivers the readable bytes, then reports the reader's error if
any), then — only if the copy succeeded — check the status: outside
`[200,300)` with `FailOnHTTPError` set, return the HTTP-status error;
without the flag just log a warning and return nil. Returns the updated sink
contents and the returned error. -/
def readResponse (opts : agentOptions) (r : Response) (w : List Nat) :
    List Nat × Option GoError :=
  let copied := w ++ r.body
  match r.bodyReadErr with
  | some e => (copied, some (.wrap "reading response" e))
  | none =>
      if r.statusCode < 200 ∨ 300 ≤ r.statusCode then
        if opts.FailOnHTTPError then
          (copied, some (httpStatusError r))
        else
          (copied, none)
      else
        (copied, none)

/-- `readResponseToByteArray` (agent.go): read into a fresh buffer; on error
return nil bytes and the error wrapped as "reading array buffer"; otherwise
the buffer's bytes and nil. -/
def readResponseToByteArray (opts : agentOptions) (r : Response) :
    Option (List Nat) × Option GoError :=
  let res := readResponse opts r []
  match res.2 with
  | some e => (none, some (.wrap "reading array buffer" e))
  | none => (some res.1, none)

/-- `Get` (agent.go): `GetRequest` then `readResponseToByteArray`; a
`GetRequest` error is wrapped as "getting GET request" and returned with nil
bytes. A nil response with nil error would make `request.Body.Close()`
panic, modelled as `none`. -/
def Get (opts : agentOptions) (send : Nat → Outcome) :
    Option (Option (List Nat) × Option GoError) :=
  match GetRequest opts send with
  | none => none
  | some res =>
      match res.error with
      | some e => some (none, some (.wrap "getting GET request" e))
      | none =>
          match res.response with
          | none => none
          | some r => some (readResponseToByteArray opts r)

/-! ## Group dispatch

`GetRequestGroup`/`PostRequestGroup` (agent.go) allocate result and error
slices of `len(urls)` entries, spawn one goroutine per url which performs a
single transport call and, under the mutex, stores the outcome at its own
index, and return after the throttler's barrier — after every goroutine has
recorded its outcome.  A run is modelled by the list `order` of slot indices
in the order the goroutines record their outcomes; the data each goroutine
writes depends only on its own index. -/

/-- The per-slot recording of group outcomes: goroutine `i` writes
`fR i`/`fE i` into slot `i` of the result and error containers, in
completion order `order`. -/
def slotWrites (fR : Nat → Option Response) (fE : Nat → Option GoError)
    (order : List Nat)
    (init : List (Option Response) × List (Option GoError)) :
    List (Option Response) × List (Option GoError) :=
  order.foldl (fun acc i => (acc.1.set i (fR i), acc.2.set i (fE i))) init

/-- Aggregated result of a group dispatch, instrumented with the number of
transport calls the dispatch performed. -/
structure GroupRun where
  responses : List (Option Response)
  errors : List (Option GoError)
  transportCalls : Nat
deriving Repr

/-- `GetRequestGroup` (agent.go): one goroutine per url, each performing a
single `SendGetRequest(a.Client(), url)` call — not a retrying request —
and writing response and error into its slot. `order` is the completion
schedule (any permutation of the indices, fixed by the throttler barrier). -/
def GetRequestGroup (send : String → Outcome) (urls : List String)
    (order : List Nat) : GroupRun :=
  let n := urls.length
  let fin := slotWrites (fun i => (send (urls.getD i "")).1)
    (fun i => (send (urls.getD i "")).2) order
    (List.replicate n none, List.replicate n none)
  { responses := fin.1, errors := fin.2, transportCalls := order.length }

/-- The error `PostRequestGroup` stores in every slot on mismatched input
lengths. -/
def mismatchedLengthsError : GoError :=
  .plain "unable to perform requests, same number URLs and POST payloads required"

/-- `PostRequestGroup` (agent.go): allocate `len(urls)` result and error
slots; if `len(postData) != len(urls)` store the same error in every error
slot and return with no dispatch; otherwise one goroutine per url performs a
single `SendPostRequest` call and records its outcome, as in
`GetRequestGroup`. -/
def PostRequestGroup (send : String → List Nat → Outcome) (urls : List String)
    (postData : List (List Nat)) (order : List Nat) : GroupRun :=
  let n := urls.length
  if postData.length ≠ n then
    { responses := List.replicate n none
      errors := List.replicate n (some mismatchedLengthsError)
      transportCalls := 0 }
  else
    let fin := slotWrites (fun i => (send (urls.getD i "") (postData.getD i [])).1)
      (fun i => (send (urls.getD i "") (postData.getD i [])).2) order
      (List.replicate n none, List.replicate n none)
    { responses := fin.1, errors := fin.2, transportCalls := order.length }

/-! ## Writer routing (`GetToWriterGroup` / `PostToWriterGroup`) -/

/-- `fmt.Errorf("request %d has no writer defined", i)` (agent.go). -/
def noWriterError (i : Nat) : GoError :=
  .plain ("request " ++ toString i ++ " has no writer defined")

/-- `fmt.Errorf("writing group response #%d: %w", i, err)` (agent.go). -/
def writingGroupError (i : Nat) (e : GoError) : GoError :=
  .wrap ("writing group response #" ++ toString i) e

/-- The `for i, r := range resps` loop shared by `GetToWriterGroup` and
`PostToWriterGroup` (agent.go): skip nil responses; with exactly one writer
read every response into it; with several, read response `i` into writer `i`
or store a "no writer defined" error when `i` is past the writers; a non-nil
routing error overwrites the slot's error, wrapped. `nw` is `len(w)` (the
writer count never changes — only writer contents do), `i` the absolute index
of the head of `rs`, `ws` the contents of each writer, `es` the error
slots. -/
def routeAux (opts : agentOptions) (nw : Nat) :
    Nat → List (Option Response) → List (List Nat) → List (Option GoError) →
    List (List Nat) × List (Option GoError)
  | _, [], ws, es => (ws, es)
  | i, none :: rest, ws, es => routeAux opts nw (i + 1) rest ws es
  | i, some r :: rest, ws, es =>
      if nw = 1 then
        let res := readResponse opts r (ws.getD 0 [])
        let ws1 := ws.set 0 res.1
        match res.2 with
        | some e =>
            routeAux opts nw (i + 1) rest ws1 (es.set i (some (writingGroupError i e)))
        | none => routeAux opts nw (i + 1) rest ws1 es
      else if nw ≤ i then
        routeAux opts nw (i + 1) rest ws
          (es.set i (some (writingGroupError i (noWriterError i))))
      else
        let res := readResponse opts r (ws.getD i [])
        let ws1 := ws.set i res.1
        match res.2 with
        | some e =>
            routeAux opts nw (i + 1) rest ws1 (es.set i (some (writingGroupError i e)))
        | none => routeAux opts nw (i + 1) rest ws1 es

/-- The writer-routing pass over a group result: start at index 0 with the
supplied writers' contents and the dispatch error slots. -/
def routeToWriterGroup (opts : agentOptions) (writers : List (List Nat))
    (resps : List (Option Response)) (errs : List (Option GoError)) :
    List (List Nat) × List (Option GoError) :=
  routeAux opts writers.length 0 resps writers errs

/-- `GetToWriterGroup` (agent.go): dispatch the group, then route the
responses to the writers. -/
def GetToWriterGroup (opts : agentOptions) (writers : List (List Nat))
    (send : String → Outcome) (urls : List String) (order : List Nat) :
    List (List Nat) × List (Option GoError) :=
  let g := GetRequestGroup send urls order
  routeToWriterGroup opts writers g.responses g.errors

/-- `PostToWriterGroup` (agent.go): dispatch the POST group, then route. -/
def PostToWriterGroup (opts : agentOptions) (writers : List (List Nat))
    (send : String → List Nat → Outcome) (urls : List String)
    (postData : List (List Nat)) (order : List Nat) :
    List (List Nat) × List (Option GoError) :=
  let g := PostRequestGroup send urls postData order
  routeToWriterGroup opts writers g.responses g.errors

/-- The concatenation of the bodies of the present responses, in input
order. -/
def concatBodies : List (Option Response) → List Nat
  | [] => []
  | none :: rest => concatBodies rest
  | some r :: rest => r.body ++ concatBodies rest

/-! ## Shared default options (`NewAgent` / `With*`)

`defaultAgentOptions` (agent.go) is a package-level pointer to a single
`agentOptions` record; `NewAgent` stores that pointer, unchanged, in every
agent it returns, and each `With*` method assigns through it. The heap of
`agentOptions` records is modelled explicitly; address 0 is the record the
package-level pointer points to. -/

/-- The heap of `agentOptions` records; cell 0 is the record behind the
package-level `defaultAgentOptions` pointer. -/
structure OptionsHeap where
  cells : List agentOptions
deriving Repr

/-- The heap at package initialization: just the default record. -/
def initialHeap : OptionsHeap := { cells := [defaultAgentOptionsRecord] }

/-- An `Agent`: holds the address of its `options` record (plus transport
and client, irrelevant to configuration sharing). -/
structure Agent where
  optionsRef : Nat
deriving DecidableEq, Repr

/-- `NewAgent` (agent.go): `&Agent{options: defaultAgentOptions}` — every
call stores the same package-level pointer. -/
def NewAgent : Agent := { optionsRef := 0 }

/-- Dereference an agent's options pointer. -/
def readOptions (h : OptionsHeap) (a : Agent) : agentOptions :=
  h.cells.getD a.optionsRef defaultAgentOptionsRecord

/-- Assign through an agent's options pointer. -/
def updateOptions (h : OptionsHeap) (a : Agent)
    (f : agentOptions → agentOptions) : OptionsHeap :=
  { cells := h.cells.set a.optionsRef (f (readOptions h a)) }

/-- One builder-method call (agent.go `WithTimeout` … `WithMaxParallel`),
with its argument. `WithMaxParallel` takes a Go `int` and converts it with
`uint(workers)` (64-bit wrap-around). -/
inductive BuilderCall where
  | withTimeout (t : Int)
  | withRetries (n : Nat)
  | withWaitTime (t : Int)
  | withMaxWaitTime (t : Int)
  | withFailOnHTTPError (b : Bool)
  | withMaxParallel (workers : Int)
deriving DecidableEq, Repr

/-- The field assignment each builder method performs on the record its
receiver's `options` pointer refers to. -/
def builderAssign : BuilderCall → agentOptions → agentOptions
  | .withTimeout t, o => { o with Timeout := t }
  | .withRetries n, o => { o with Retries := n }
  | .withWaitTime t, o => { o with WaitTime := t }
  | .withMaxWaitTime t, o => { o with MaxWaitTime := t }
  | .withFailOnHTTPError b, o => { o with FailOnHTTPError := b }
  | .withMaxParallel w, o => { o with MaxParallel := (w.emod (2 ^ 64)).toNat }

/-- Apply a builder method to an agent: mutate the record behind its
`options` pointer (each `With*` in agent.go assigns `a.options.Field = v`
and returns `a`). -/
def applyBuilder (h : OptionsHeap) (a : Agent) (c : BuilderCall) : OptionsHeap :=
  updateOptions h a (builderAssign c)

/-! ## Bounded-concurrency dispatch discipline

Modelled from the spec: the implementation of the throttler package
(`sigs.k8s.io/release-utils/throttler`, the fork of nozzle/throttler used by
the group dispatch loop) is not among the sources — only its README and
examples are.  Per spec §4.4/§5 and the README ("allows you to set a max
number of workers that can be running simultaneously"), `t.Throttle()` after
each spawn admits the next spawn only while fewer than `maxParallel` spawned
tasks are unfinished.  The dispatch of a group of `n` member requests with
`maxParallel = k` is the following transition system. -/

/-- State of a group dispatch: how many tasks the main loop has spawned,
which task indices are in flight (spawned, transport call not yet finished),
and which have completed. -/
structure DispatchState where
  spawned : Nat
  inFlight : Finset Nat
  completed : Finset Nat
deriving DecidableEq

/-- One scheduling step of the dispatch of `n` member requests under
`maxParallel = k`: the main loop spawns the next task (admitted by the
throttler only while fewer than `k` are in flight), or an in-flight task
finishes its transport call. -/
inductive DispatchStep (k n : Nat) : DispatchState → DispatchState → Prop
  | spawn (s : DispatchState) (hn : s.spawned < n) (hk : s.inFlight.card < k) :
      DispatchStep k n s
        { spawned := s.spawned + 1
          inFlight := insert s.spawned s.inFlight
          completed := s.completed }
  | finish (s : DispatchState) (i : Nat) (hi : i ∈ s.inFlight) :
      DispatchStep k n s
        { spawned := s.spawned
          inFlight := s.inFlight.erase i
          completed := insert i s.completed }

/-- The states a group dispatch can reach from the start (nothing spawned),
under any interleaving of task scheduling. -/
inductive DispatchReachable (k n : Nat) : DispatchState → Prop
  | init : DispatchReachable k n { spawned := 0, inFlight := ∅, completed := ∅ }
  | step {s s' : DispatchState} : DispatchReachable k n s →
      DispatchStep k n s s' → DispatchReachable k n s'

/-! ## Helper lemmas -/

/-- The statuses `shouldRetry` classifies as retryable (for a nil /
non-`url.Error` error value): 429, 0, and 500+ except 501. -/
def retryableStatus (c : Int) : Prop :=
  c = 429 ∨ c = 0 ∨ (500 ≤ c ∧ c ≠ 501)

instance (c : Int) : Decidable (retryableStatus c) := by
  unfold retryableStatus
  infer_instance

theorem shouldRetry_terminal (r : Response) (h : ¬retryableStatus r.statusCode) :
    shouldRetry (some r) none = some none := by
  unfold retryableStatus at h
  push_neg at h
  obtain ⟨h1, h2, h3⟩ := h
  have hor : ¬(r.statusCode = 0 ∨ (500 ≤ r.statusCode ∧ r.statusCode ≠ 501)) := by
    rintro (hc | ⟨hc1, hc2⟩)
    · exact h2 hc
    · exact hc2 (h3 hc1)
  simp [shouldRetry, h1, hor]

theorem shouldRetry_retryable (r : Response) (h : retryableStatus r.statusCode) :
    ∃ e, shouldRetry (some r) none = some (some e) := by
  by_cases h429 : r.statusCode = 429
  · exact ⟨_, by simp [shouldRetry, h429]; rfl⟩
  · have hor : r.statusCode = 0 ∨ (500 ≤ r.statusCode ∧ r.statusCode ≠ 501) := by
      rcases h with h | h | h
      · exact absurd h h429
      · exact Or.inl h
      · exact Or.inr h
    exact ⟨_, by simp [shouldRetry, h429, hor]; rfl⟩

/-- A single attempt with a terminal-status response and nil error ends the
retry loop at once, returning that response with nil error. -/
theorem retryRequest_terminal (opts : agentOptions) (doF : Nat → Outcome)
    (r : Response) (hret : 1 ≤ opts.Retries) (hdo : doF 0 = (some r, none))
    (hst : ¬retryableStatus r.statusCode) :
    retryRequest opts doF =
      some { response := some r, error := none, calls := 1, sleeps := [] } := by
  obtain ⟨f, hf⟩ : ∃ f, opts.Retries = f + 1 :=
    ⟨opts.Retries - 1, by omega⟩
  simp only [retryRequest, hf]
  rw [if_neg (by omega)]
  simp only [retryDoAux, hdo, shouldRetry_terminal r hst]

/-- Worked attempts of the retry loop: at least one call happens, and the
slept delays are exactly `retryGoDelay` at attempt indices `n`, `n+1`, …,
one per retry. -/
theorem retryDoAux_sleeps (opts : agentOptions) (doF : Nat → Outcome) :
    ∀ (fuel n : Nat) (sleeps : List Int) (res : RetryResult),
      1 ≤ fuel →
      retryDoAux opts doF n sleeps fuel = some res →
      n + 1 ≤ res.calls ∧
        res.sleeps =
          sleeps ++ (List.range' n (res.calls - 1 - n)).map (retryGoDelay opts) := by
  intro fuel
  induction fuel with
  | zero => intro n sleeps res h; exact absurd h (by omega)
  | succ f ih =>
      intro n sleeps res _ heq
      simp only [retryDoAux] at heq
      split at heq
      · exact absurd heq (by simp)
      · cases heq
        refine ⟨by simp, ?_⟩
        simp
      · split at heq
        · cases heq
          refine ⟨by simp, ?_⟩
          simp
        · rename_i f0
          obtain ⟨h1, h2⟩ := ih (n + 1) (sleeps ++ [retryGoDelay opts n]) res (by omega) heq
          refine ⟨by omega, ?_⟩
          have hk : res.calls - 1 - n = (res.calls - 1 - (n + 1)) + 1 := by omega
          rw [h2, hk, List.range'_succ]
          simp

/-- With a constant retryable outcome the loop consumes all its attempts:
one call per unit of fuel. -/
theorem retryDoAux_const_calls (opts : agentOptions) (r : Response)
    (hst : retryableStatus r.statusCode) :
    ∀ (fuel n : Nat) (sleeps : List Int), 1 ≤ fuel →
      ∃ res, retryDoAux opts (fun _ => (some r, none)) n sleeps fuel = some res ∧
        res.calls = n + fuel := by
  intro fuel
  induction fuel with
  | zero => intro n sleeps h; exact absurd h (by omega)
  | succ f ih =>
      intro n sleeps _
      obtain ⟨e, he⟩ := shouldRetry_retryable r hst
      by_cases hf : f = 0
      · subst hf
        refine ⟨⟨some r, some e, n + 1, sleeps⟩, ?_, rfl⟩
        simp [retryDoAux, he]
      · obtain ⟨res, hres, hcalls⟩ := ih (n + 1) (sleeps ++ [retryGoDelay opts n]) (by omega)
        refine ⟨res, ?_, by omega⟩
        simp only [retryDoAux, he, if_neg hf]
        exact hres

/-- Worked rounds of the `HeadRequest` loop: with enough fuel it makes at
least one call and its slept delays are exactly `headDelay` at
`t+1, t+2, …`, one per retry round. -/
theorem headRequestAux_sleeps (opts : agentOptions) (send : Nat → Outcome) :
    ∀ (fuel t : Nat) (sleeps : List Int),
      1 ≤ fuel → opts.Retries ≤ t + fuel →
      t + 1 ≤ (headRequestAux opts send t sleeps fuel).calls ∧
        (headRequestAux opts send t sleeps fuel).sleeps =
          sleeps ++ (List.range' (t + 1)
            ((headRequestAux opts send t sleeps fuel).calls - 1 - t)).map
            (headDelay opts) := by
  intro fuel
  induction fuel with
  | zero => intro t sleeps h; exact absurd h (by omega)
  | succ f ih =>
      intro t sleeps _ hret
      by_cases hcond : (send t).2 = none ∨ opts.Retries ≤ t + 1
      · rw [headRequestAux, if_pos hcond]
        refine ⟨by simp, ?_⟩
        simp
      · push_neg at hcond
        have hf : 1 ≤ f := by omega
        have hret' : opts.Retries ≤ (t + 1) + f := by omega
        obtain ⟨h1, h2⟩ := ih (t + 1) (sleeps ++ [headDelay opts (t + 1)]) hf hret'
        rw [headRequestAux, if_neg (by push_neg; exact hcond)]
        refine ⟨by omega, ?_⟩
        set res := headRequestAux opts send (t + 1)
          (sleeps ++ [headDelay opts (t + 1)]) f with hres
        have hk : res.calls - 1 - t = (res.calls - 1 - (t + 1)) + 1 := by omega
        rw [h2, hk, List.range'_succ]
        simp

/-- `slotWrites` preserves the lengths of both containers. -/
theorem slotWrites_length (fR : Nat → Option Response) (fE : Nat → Option GoError) :
    ∀ (order : List Nat) (init : List (Option Response) × List (Option GoError)),
      (slotWrites fR fE order init).1.length = init.1.length ∧
      (slotWrites fR fE order init).2.length = init.2.length := by
  intro order
  induction order with
  | nil => intro init; exact ⟨rfl, rfl⟩
  | cons j rest ih =>
      intro init
      have h := ih (init.1.set j (fR j), init.2.set j (fE j))
      simpa [slotWrites, List.length_set] using h

/-- Slots whose index never completes are untouched by `slotWrites`. -/
theorem slotWrites_get_of_not_mem (fR : Nat → Option Response)
    (fE : Nat → Option GoError) :
    ∀ (order : List Nat) (init : List (Option Response) × List (Option GoError))
      (i : Nat), i ∉ order →
      (slotWrites fR fE order init).1[i]? = init.1[i]? ∧
      (slotWrites fR fE order init).2[i]? = init.2[i]? := by
  intro order
  induction order with
  | nil => intro init i _; exact ⟨rfl, rfl⟩
  | cons j rest ih =>
      intro init i hmem
      have hne : j ≠ i := fun h => hmem (h ▸ List.mem_cons_self j rest)
      have hrest : i ∉ rest := fun h => hmem (List.mem_cons_of_mem j h)
      have h := ih (init.1.set j (fR j), init.2.set j (fE j)) i hrest
      simpa [slotWrites, List.getElem?_set_ne hne] using h

/-- A slot whose goroutine completes holds exactly that goroutine's outcome,
no matter the completion order: the recorded value depends only on the
slot's own index. -/
theorem slotWrites_get_of_mem (fR : Nat → Option Response)
    (fE : Nat → Option GoError) :
    ∀ (order : List Nat) (init : List (Option Response) × List (Option GoError))
      (i : Nat), i ∈ order →
      i < init.1.length → i < init.2.length →
      (slotWrites fR fE order init).1[i]? = some (fR i) ∧
      (slotWrites fR fE order init).2[i]? = some (fE i) := by
  intro order
  induction order with
  | nil => intro init i h; exact absurd h (List.not_mem_nil i)
  | cons j rest ih =>
      intro init i hmem h1 h2
      by_cases hrest : i ∈ rest
      · have h := ih (init.1.set j (fR j), init.2.set j (fE j)) i hrest
          (by simpa [List.length_set] using h1)
          (by simpa [List.length_set] using h2)
        simpa [slotWrites] using h
      · have hij : i = j := by
          rcases List.mem_cons.mp hmem with h | h
          · exact h
          · exact absurd h hrest
        subst hij
        have h := slotWrites_get_of_not_mem fR fE rest
          (init.1.set i (fR i), init.2.set i (fE i)) i hrest
        refine ⟨?_, ?_⟩
        · have hh := h.1
          simp only [slotWrites, List.foldl_cons] at hh ⊢
          rw [hh, List.getElem?_set_self h1]
        · have hh := h.2
          simp only [slotWrites, List.foldl_cons] at hh ⊢
          rw [hh, List.getElem?_set_self h2]

/-! ## Claim theorems -/

/-- C10: the retry classification used by Get and Post (when retries ≥ 1) is
total only when every transport outcome has a non-nil response or an error
matching `url.Error`: on a nil response with a non-nil, non-`url.Error` error,
`shouldRetry` reaches its status-code branch and dereferences the nil
response, so the classification (and with it `retryRequest`) panics instead
of returning a result. -/
theorem shouldRetry_nil_response_panics :
    (∀ e : GoError, e.isUrlError = false → shouldRetry none (some e) = none) ∧
    (∀ (opts : agentOptions) (doF : Nat → Outcome) (e : GoError),
      1 ≤ opts.Retries → doF 0 = (none, some e) → e.isUrlError = false →
      retryRequest opts doF = none) := by
  constructor
  · intro e he
    simp [shouldRetry, he]
  · intro opts doF e hret hdo he
    obtain ⟨f, hf⟩ : ∃ f, opts.Retries = f + 1 := ⟨opts.Retries - 1, by omega⟩
    have hsr : shouldRetry (doF 0).1 (doF 0).2 = none := by
      rw [hdo]
      simp [shouldRetry, he]
    rw [retryRequest, hf, if_neg (by omega : ¬f + 1 = 0)]
    simp only [retryDoAux, hsr]

/-- Witness for C10: an agent implementation returning `(nil, errors.New("boom"))`
makes the classification, and a `GetRequest`/`PostRequest` with the default
options (3 retries), panic. -/
theorem shouldRetry_nil_response_panics_witness :
    shouldRetry none (some (GoError.plain "boom")) = none ∧
    retryRequest defaultAgentOptionsRecord
      (fun _ => (none, some (GoError.plain "boom"))) = none :=
  ⟨shouldRetry_nil_response_panics.1 (GoError.plain "boom") rfl,
   shouldRetry_nil_response_panics.2 defaultAgentOptionsRecord
     (fun _ => (none, some (GoError.plain "boom"))) (GoError.plain "boom")
     (by decide) rfl rfl⟩

/-- C4: a POST group whose url and payload sequences have unequal lengths
makes no transport call, leaves every response slot nil, and stores the same
"mismatched lengths" error in every error slot. -/
theorem post_group_mismatched_lengths (send : String → List Nat → Outcome)
    (urls : List String) (postData : List (List Nat)) (order : List Nat)
    (h : postData.length ≠ urls.length) :
    PostRequestGroup send urls postData order =
      { responses := List.replicate urls.length none
        errors := List.replicate urls.length (some mismatchedLengthsError)
        transportCalls := 0 } := by
  simp [PostRequestGroup, h]

/-- Witness for C4: three urls against two payloads. -/
theorem post_group_mismatched_lengths_witness :
    PostRequestGroup (fun _ _ => (none, none)) ["a", "b", "c"] [[1], [2]] [0, 1, 2] =
      { responses := List.replicate 3 none
        errors := List.replicate 3 (some mismatchedLengthsError)
        transportCalls := 0 } :=
  post_group_mismatched_lengths (fun _ _ => (none, none)) ["a", "b", "c"]
    [[1], [2]] [0, 1, 2] (by decide)

/-- C9: every agent returned by `NewAgent` holds the same package-level
options pointer, so a builder call through one agent is observed by any
other: after `applyBuilder` through `a1`, `a2` reads the mutated record. -/
theorem newAgent_shares_default_options (h : OptionsHeap) (a1 a2 : Agent)
    (c : BuilderCall) (h1 : a1 = NewAgent) (h2 : a2 = NewAgent)
    (hcells : 0 < h.cells.length) :
    readOptions (applyBuilder h a1 c) a2 = builderAssign c (readOptions h a2) := by
  subst h1
  subst h2
  cases hc : h.cells with
  | nil => rw [hc] at hcells; simp at hcells
  | cons x xs => simp [readOptions, applyBuilder, updateOptions, NewAgent, hc]

/-- Witness for C9: `WithTimeout(42)` through one fresh agent changes the
timeout the other fresh agent observes, starting from the package's initial
heap. -/
theorem newAgent_shares_default_options_witness :
    readOptions (applyBuilder initialHeap NewAgent (BuilderCall.withTimeout 42))
        NewAgent =
      builderAssign (BuilderCall.withTimeout 42) (readOptions initialHeap NewAgent) :=
  newAgent_shares_default_options initialHeap NewAgent NewAgent
    (BuilderCall.withTimeout 42) rfl rfl (by decide)

/-- C8: in every reachable state of a group dispatch with `maxParallel = k`
over more inputs than `k`, at most `k` member requests are in flight,
whatever the interleaving of spawns and completions. -/
theorem dispatch_inflight_bound (k n : Nat) (_hkn : k < n) (s : DispatchState)
    (hs : DispatchReachable k n s) : s.inFlight.card ≤ k := by
  induction hs with
  | init => simp
  | step hr hstep ih =>
      cases hstep with
      | spawn hn hk => exact le_trans (Finset.card_insert_le _ _) hk
      | finish i hi => exact le_trans Finset.card_erase_le ih

/-- Witness for C8: with `k = 1` and two inputs, the state reached after
spawning the first task keeps the in-flight count within the bound. -/
theorem dispatch_inflight_bound_witness :
    ({ spawned := 1, inFlight := insert 0 ∅, completed := ∅ } :
      DispatchState).inFlight.card ≤ 1 :=
  dispatch_inflight_bound 1 2 (by omega) _
    (DispatchReachable.step DispatchReachable.init
      (DispatchStep.spawn _ (by decide) (by simp)))

/-! Concrete fixtures used by counterexamples and witnesses. -/

/-- A 404 response (terminal, non-retryable status). -/
def resp404 : Response :=
  { statusCode := 404, status := "404 Not Found", requestURL := "u",
    body := [9, 8], bodyReadErr := none }

/-- A 429 response (retryable status). -/
def resp429 : Response :=
  { statusCode := 429, status := "429 Too Many Requests", requestURL := "u",
    body := [], bodyReadErr := none }

/-- A 500 response (retryable status). -/
def resp500 : Response :=
  { statusCode := 500, status := "500 Internal Server Error", requestURL := "u",
    body := [], bodyReadErr := none }

/-- A 501 response (terminal by the 501 exception). -/
def resp501 : Response :=
  { statusCode := 501, status := "501 Not Implemented", requestURL := "u",
    body := [], bodyReadErr := none }

/-- Options with 3 retries and a 5-second initial wait. -/
def optsW5 : agentOptions :=
  { defaultAgentOptionsRecord with Retries := 3, WaitTime := 5000000000 }

/-- Counterexample to C2 as stated: with 3 retries configured and a stub
whose response has status 500 and a nil error — a retryable status per the
claim — `HeadRequest` makes exactly one transport call: the Head operation
never consults the status, so "every single-request operation … is retried"
fails for Head. -/
theorem headRequest_ignores_status_cex :
    (HeadRequest { defaultAgentOptionsRecord with Retries := 3 }
        (fun _ => (some resp500, none))).calls = 1 ∧
    ({ defaultAgentOptionsRecord with Retries := 3 } : agentOptions).Retries = 3 ∧
    retryableStatus resp500.statusCode := by
  refine ⟨rfl, rfl, ?_⟩
  decide

/-- C2 (amended): for Get and Post with retry budget, an attempt whose
response has status 429, status 0, or status ≥ 500 other than 501 is
retried (a constant such stub consumes the whole budget), and any other
status ends the loop at once with that response; a 501 stub is called
exactly once regardless of the configured retries. Head, however, retries
only when the transport returns a non-nil error: with a nil error it
returns after one call whatever the status. -/
theorem retry_status_classification_amended :
    (∀ (opts : agentOptions) (doF : Nat → Outcome) (r : Response),
      1 ≤ opts.Retries → doF 0 = (some r, none) → ¬retryableStatus r.statusCode →
      retryRequest opts doF =
        some { response := some r, error := none, calls := 1, sleeps := [] }) ∧
    (∀ (opts : agentOptions) (r : Response),
      1 ≤ opts.Retries → retryableStatus r.statusCode →
      ∃ res, retryRequest opts (fun _ => (some r, none)) = some res ∧
        res.calls = opts.Retries) ∧
    (∀ (opts : agentOptions) (doF : Nat → Outcome) (r : Response),
      doF 0 = (some r, none) → r.statusCode = 501 →
      ∃ res, retryRequest opts doF = some res ∧ res.calls = 1 ∧
        res.response = some r) ∧
    (∀ (opts : agentOptions) (send : Nat → Outcome) (o : Option Response),
      send 0 = (o, none) →
      HeadRequest opts send =
        { response := o, error := none, calls := 1, sleeps := [] }) := by
  refine ⟨retryRequest_terminal, ?_, ?_, ?_⟩
  · intro opts r hret hst
    obtain ⟨f, hf⟩ : ∃ f, opts.Retries = f + 1 := ⟨opts.Retries - 1, by omega⟩
    obtain ⟨res, hres, hcalls⟩ :=
      retryDoAux_const_calls opts r hst (f + 1) 0 [] (by omega)
    refine ⟨res, ?_, by omega⟩
    rw [retryRequest, hf, if_neg (by omega : ¬f + 1 = 0)]
    exact hres
  · intro opts doF r hdo h501
    have hst : ¬retryableStatus r.statusCode := by
      rw [h501]
      decide
    by_cases hret : opts.Retries = 0
    · refine ⟨{ response := some r, error := none, calls := 1, sleeps := [] },
        ?_, rfl, rfl⟩
      simp [retryRequest, hret, hdo]
    · exact ⟨_, retryRequest_terminal opts doF r (by omega) hdo hst, rfl, rfl⟩
  · intro opts send o hsend
    have hcond : (send 0).2 = none ∨ opts.Retries ≤ 0 + 1 := Or.inl (by rw [hsend])
    rw [HeadRequest, headRequestAux, if_pos hcond, hsend]

/-- Witness for the amended C2: a 404 stub ends the loop at one call with
the response; a constant 500 stub consumes all 3 attempts; a 501 stub is
called once under the default 3 retries; a Head stub answering 500 with nil
error returns after one call. -/
theorem retry_status_classification_amended_witness :
    (retryRequest { defaultAgentOptionsRecord with Retries := 3 }
        (fun _ => (some resp404, none)) =
      some { response := some resp404, error := none, calls := 1, sleeps := [] }) ∧
    (∃ res, retryRequest { defaultAgentOptionsRecord with Retries := 3 }
        (fun _ => (some resp500, none)) = some res ∧
      res.calls = ({ defaultAgentOptionsRecord with Retries := 3 } : agentOptions).Retries) ∧
    (∃ res, retryRequest defaultAgentOptionsRecord
        (fun _ => (some resp501, none)) = some res ∧ res.calls = 1 ∧
      res.response = some resp501) ∧
    (HeadRequest defaultAgentOptionsRecord (fun _ => (some resp500, none)) =
      { response := some resp500, error := none, calls := 1, sleeps := [] }) :=
  ⟨retry_status_classification_amended.1 _ _ resp404 (by decide) rfl (by decide),
   retry_status_classification_amended.2.1 _ resp500 (by decide) (by decide),
   retry_status_classification_amended.2.2.1 _ _ resp501 rfl (by decide),
   retry_status_classification_amended.2.2.2 _ _ (some resp500) rfl⟩

/-- Counterexample to C5 as stated: under `WaitTime = 5s`, `MaxWaitTime = 60s`
and 3 retries, a persistently failing Head stub sleeps 2s then 4s — the Head
loop's delay is `2^try` seconds, which equals `WaitTime * 2^n` capped at
`MaxWaitTime` for no attempt index `n` whatever. -/
theorem head_backoff_ignores_waitTime_cex :
    (HeadRequest optsW5 (fun _ => (none, some (GoError.plain "x")))).sleeps =
      [2000000000, 4000000000] ∧
    ∀ n : Nat,
      (2000000000 : Int) ≠ min (optsW5.WaitTime * 2 ^ n) optsW5.MaxWaitTime := by
  refine ⟨rfl, ?_⟩
  intro n
  show (2000000000 : Int) ≠ min ((5000000000 : Int) * 2 ^ n) 60000000000
  have hp : (0 : Int) < 2 ^ n := pow_pos (by norm_num) n
  have h5 : (5000000000 : Int) ≤ 5000000000 * 2 ^ n := by nlinarith
  have hmin : (5000000000 : Int) ≤ min ((5000000000 : Int) * 2 ^ n) 60000000000 :=
    le_min h5 (by norm_num)
  intro heq
  rw [← heq] at hmin
  omega

/-- C5 (amended): for Get and Post (`retryRequest` with budget ≥ 1) the
delay slept before the retry that follows attempt `n` is
`WaitTime * 2^n` capped at `MaxWaitTime` (`retryGoDelay`), one sleep per
retry in attempt order; for Head the delay after the n-th call is instead
`2^n` seconds, replaced by the truncated `MaxWaitTime` seconds once `2^n`
exceeds 60 (`headDelay`), independent of `WaitTime`. -/
theorem backoff_delay_amended :
    (∀ (opts : agentOptions) (doF : Nat → Outcome) (res : RetryResult),
      1 ≤ opts.Retries → retryRequest opts doF = some res →
      res.sleeps = (List.range (res.calls - 1)).map (retryGoDelay opts)) ∧
    (∀ (opts : agentOptions) (send : Nat → Outcome),
      (HeadRequest opts send).sleeps =
        (List.range ((HeadRequest opts send).calls - 1)).map
          (fun n => headDelay opts (n + 1))) := by
  constructor
  · intro opts doF res hret heq
    obtain ⟨f, hf⟩ : ∃ f, opts.Retries = f + 1 := ⟨opts.Retries - 1, by omega⟩
    rw [retryRequest, hf, if_neg (by omega : ¬f + 1 = 0)] at heq
    obtain ⟨h1, h2⟩ := retryDoAux_sleeps opts doF (f + 1) 0 [] res (by omega) heq
    rw [h2, List.range_eq_range']
    simp
  · intro opts send
    obtain ⟨h1, h2⟩ := headRequestAux_sleeps opts send (opts.Retries + 1) 0 []
      (by omega) (by omega)
    rw [HeadRequest, h2]
    have hfun : ∀ m : Nat, headDelay opts (1 + m) = headDelay opts (m + 1) := by
      intro m
      rw [Nat.add_comm]
    simp [List.range'_eq_map_range, List.map_map, Function.comp, hfun]

/-- Witness for the amended C5: with `WaitTime = 5s` and 3 retries, the
constant-500 run makes 3 calls and sleeps `[5s, 10s]`, matching
`retryGoDelay` at attempts 0 and 1. -/
theorem backoff_delay_amended_witness :
    [(5000000000 : Int), 10000000000] =
      (List.range (3 - 1)).map (retryGoDelay optsW5) :=
  backoff_delay_amended.1 optsW5 (fun _ => (some resp500, none))
    { response := some resp500
      error := some (.plain "retry unexpected HTTP status 500: 500 Internal Server Error")
      calls := 3
      sleeps := [5000000000, 10000000000] }
    (by decide) (by decide)

/-- Counterexample to C1 as stated: a single-member GET group whose stub
always answers status 429 — retryable by the backoff policy — performs
exactly one transport call for its member, while the retrying path used by
the single-request operations performs all 3 configured attempts on the
same outcomes: the group member is not executed as a retrying request. -/
theorem group_not_retrying_cex :
    (GetRequestGroup (fun _ => (some resp429, none)) ["u"] [0]).transportCalls = 1 ∧
    (retryRequest { defaultAgentOptionsRecord with Retries := 3 }
        (fun _ => (some resp429, none))).map RetryResult.calls = some 3 ∧
    retryableStatus resp429.statusCode := by
  refine ⟨rfl, by decide, by decide⟩

/-- C1 (amended): each member of a group dispatch — GET via `SendGetRequest`
and POST via `SendPostRequest` alike — is executed as a single, direct
transport attempt: the group makes exactly one transport call per input and
records, at slot `i`, the unretried outcome of that one call for url `i`
(and payload `i` for POST groups with matching payloads); no backoff retry
is applied to group members (retry with backoff applies only to the
single-request operations). -/
theorem group_members_single_attempt (send : String → Outcome)
    (psend : String → List Nat → Outcome) (urls : List String)
    (postData : List (List Nat)) (order : List Nat)
    (hperm : order.Perm (List.range urls.length)) :
    ((GetRequestGroup send urls order).transportCalls = urls.length ∧
     ∀ i, i < urls.length →
       (GetRequestGroup send urls order).responses[i]? =
         some (send (urls.getD i "")).1 ∧
       (GetRequestGroup send urls order).errors[i]? =
         some (send (urls.getD i "")).2) ∧
    (postData.length = urls.length →
     (PostRequestGroup psend urls postData order).transportCalls = urls.length ∧
     ∀ i, i < urls.length →
       (PostRequestGroup psend urls postData order).responses[i]? =
         some (psend (urls.getD i "") (postData.getD i [])).1 ∧
       (PostRequestGroup psend urls postData order).errors[i]? =
         some (psend (urls.getD i "") (postData.getD i [])).2) := by
  constructor
  · constructor
    · simpa [GetRequestGroup] using hperm.length_eq
    · intro i hi
      have hmem : i ∈ order := hperm.mem_iff.mpr (List.mem_range.mpr hi)
      have h := slotWrites_get_of_mem (fun j => (send (urls.getD j "")).1)
        (fun j => (send (urls.getD j "")).2) order
        (List.replicate urls.length none, List.replicate urls.length none) i hmem
        (by simpa using hi) (by simpa using hi)
      exact ⟨h.1, h.2⟩
  · intro hlen
    constructor
    · simpa [PostRequestGroup, hlen] using hperm.length_eq
    · intro i hi
      have hmem : i ∈ order := hperm.mem_iff.mpr (List.mem_range.mpr hi)
      have h := slotWrites_get_of_mem
        (fun j => (psend (urls.getD j "") (postData.getD j [])).1)
        (fun j => (psend (urls.getD j "") (postData.getD j [])).2) order
        (List.replicate urls.length none, List.replicate urls.length none) i hmem
        (by simpa using hi) (by simpa using hi)
      refine ⟨?_, ?_⟩
      · have hh := h.1
        simpa [PostRequestGroup, hlen] using hh
      · have hh := h.2
        simpa [PostRequestGroup, hlen] using hh

/-- Witness for the amended C1: two-url GET and POST groups completing in
reverse order each make exactly two transport calls. -/
theorem group_members_single_attempt_witness :
    (GetRequestGroup (fun u => (some { resp404 with requestURL := u }, none))
        ["a", "b"] [1, 0]).transportCalls = 2 ∧
    (PostRequestGroup (fun u _ => (some { resp404 with requestURL := u }, none))
        ["a", "b"] [[1], [2]] [1, 0]).transportCalls = 2 :=
  ⟨(group_members_single_attempt
      (fun u => (some { resp404 with requestURL := u }, none))
      (fun u _ => (some { resp404 with requestURL := u }, none))
      ["a", "b"] [[1], [2]] [1, 0] (by decide)).1.1,
   ((group_members_single_attempt
      (fun u => (some { resp404 with requestURL := u }, none))
      (fun u _ => (some { resp404 with requestURL := u }, none))
      ["a", "b"] [[1], [2]] [1, 0] (by decide)).2 (by decide)).1⟩

/-- C3: a group dispatch returns result and error sequences of the input's
length, slot `i` holds the outcome of the request for input `i` under every
completion order (any permutation of the member indices), failures staying
in their slot; for POST groups the lengths are the input's length even in
the mismatched-payload case. -/
theorem group_index_alignment (send : String → Outcome)
    (psend : String → List Nat → Outcome) (urls : List String)
    (postData : List (List Nat)) (order : List Nat)
    (hperm : order.Perm (List.range urls.length)) :
    ((GetRequestGroup send urls order).responses.length = urls.length ∧
     (GetRequestGroup send urls order).errors.length = urls.length ∧
     ∀ i, i < urls.length →
       (GetRequestGroup send urls order).responses[i]? =
         some (send (urls.getD i "")).1 ∧
       (GetRequestGroup send urls order).errors[i]? =
         some (send (urls.getD i "")).2) ∧
    ((PostRequestGroup psend urls postData order).responses.length = urls.length ∧
     (PostRequestGroup psend urls postData order).errors.length = urls.length) ∧
    (postData.length = urls.length →
     ∀ i, i < urls.length →
       (PostRequestGroup psend urls postData order).responses[i]? =
         some (psend (urls.getD i "") (postData.getD i [])).1 ∧
       (PostRequestGroup psend urls postData order).errors[i]? =
         some (psend (urls.getD i "") (postData.getD i [])).2) := by
  refine ⟨⟨?_, ?_, ?_⟩, ⟨?_, ?_⟩, ?_⟩
  · have h := slotWrites_length (fun j => (send (urls.getD j "")).1)
      (fun j => (send (urls.getD j "")).2) order
      (List.replicate urls.length none, List.replicate urls.length none)
    simpa [GetRequestGroup] using h.1
  · have h := slotWrites_length (fun j => (send (urls.getD j "")).1)
      (fun j => (send (urls.getD j "")).2) order
      (List.replicate urls.length none, List.replicate urls.length none)
    simpa [GetRequestGroup] using h.2
  · intro i hi
    have hmem : i ∈ order := hperm.mem_iff.mpr (List.mem_range.mpr hi)
    have h := slotWrites_get_of_mem (fun j => (send (urls.getD j "")).1)
      (fun j => (send (urls.getD j "")).2) order
      (List.replicate urls.length none, List.replicate urls.length none) i hmem
      (by simpa using hi) (by simpa using hi)
    exact ⟨h.1, h.2⟩
  · by_cases hlen : postData.length = urls.length
    · have h := slotWrites_length
        (fun j => (psend (urls.getD j "") (postData.getD j [])).1)
        (fun j => (psend (urls.getD j "") (postData.getD j [])).2) order
        (List.replicate urls.length none, List.replicate urls.length none)
      simpa [PostRequestGroup, hlen] using h.1
    · simp [PostRequestGroup, hlen]
  · by_cases hlen : postData.length = urls.length
    · have h := slotWrites_length
        (fun j => (psend (urls.getD j "") (postData.getD j [])).1)
        (fun j => (psend (urls.getD j "") (postData.getD j [])).2) order
        (List.replicate urls.length none, List.replicate urls.length none)
      simpa [PostRequestGroup, hlen] using h.2
    · simp [PostRequestGroup, hlen]
  · intro hlen i hi
    have hmem : i ∈ order := hperm.mem_iff.mpr (List.mem_range.mpr hi)
    have h := slotWrites_get_of_mem
      (fun j => (psend (urls.getD j "") (postData.getD j [])).1)
      (fun j => (psend (urls.getD j "") (postData.getD j [])).2) order
      (List.replicate urls.length none, List.replicate urls.length none) i hmem
      (by simpa using hi) (by simpa using hi)
    refine ⟨?_, ?_⟩
    · have hh := h.1
      simpa [PostRequestGroup, hlen] using hh
    · have hh := h.2
      simpa [PostRequestGroup, hlen] using hh

/-- Witness for C3: a two-url group completing in reverse order keeps both
sequences at length 2. -/
theorem group_index_alignment_witness :
    (GetRequestGroup (fun u => (some { resp404 with requestURL := u }, none))
        ["a", "b"] [1, 0]).responses.length = 2 :=
  (group_index_alignment
    (fun u => (some { resp404 with requestURL := u }, none))
    (fun _ _ => (none, none)) ["a", "b"] [] [1, 0] (by decide)).1.1

/-- C6: for a response with status outside [200,300): with `FailOnHTTPError`
set, reading it yields nil bytes and an error naming the status text and the
requested URL; with the flag unset it yields the body bytes and nil error
(the violation is only logged); and a failure of the body copy itself is
returned as a distinct read error whatever the flag — also surfaced through
`Get` with a 404 stub. -/
theorem readResponse_status_policy (opts : agentOptions) (r : Response)
    (hst : r.statusCode < 200 ∨ 300 ≤ r.statusCode) :
    (r.bodyReadErr = none → opts.FailOnHTTPError = true →
      readResponseToByteArray opts r =
        (none, some (.wrap "reading array buffer" (httpStatusError r)))) ∧
    (r.bodyReadErr = none → opts.FailOnHTTPError = false →
      readResponseToByteArray opts r = (some r.body, none)) ∧
    (∀ e, r.bodyReadErr = some e →
      readResponseToByteArray opts r =
        (none, some (.wrap "reading array buffer" (.wrap "reading response" e)))) ∧
    (∀ doF : Nat → Outcome, 1 ≤ opts.Retries → doF 0 = (some r, none) →
      r.statusCode = 404 →
      Get opts doF = some (readResponseToByteArray opts r)) := by
  refine ⟨?_, ?_, ?_, ?_⟩
  · intro hb hfail
    simp [readResponseToByteArray, readResponse, hb, hst, hfail]
  · intro hb hfail
    simp [readResponseToByteArray, readResponse, hb, hst, hfail]
  · intro e hb
    simp [readResponseToByteArray, readResponse, hb]
  · intro doF hret hdo h404
    have hterm := retryRequest_terminal opts doF r hret hdo
      (by rw [h404]; decide)
    simp [Get, GetRequest, hterm]

/-- Witness for C6: the 404 fixture under both flag values, a broken body
reader, and `Get` with a 404 stub under the default options. -/
theorem readResponse_status_policy_witness :
    (readResponseToByteArray defaultAgentOptionsRecord resp404 =
      (none, some (.wrap "reading array buffer" (httpStatusError resp404)))) ∧
    (readResponseToByteArray { defaultAgentOptionsRecord with FailOnHTTPError := false }
        resp404 = (some resp404.body, none)) ∧
    (readResponseToByteArray defaultAgentOptionsRecord
        { resp404 with bodyReadErr := some (GoError.plain "peer reset") } =
      (none, some (.wrap "reading array buffer"
        (.wrap "reading response" (GoError.plain "peer reset"))))) ∧
    (Get defaultAgentOptionsRecord (fun _ => (some resp404, none)) =
      some (readResponseToByteArray defaultAgentOptionsRecord resp404)) :=
  ⟨(readResponse_status_policy defaultAgentOptionsRecord resp404
      (by decide)).1 rfl rfl,
   (readResponse_status_policy
      { defaultAgentOptionsRecord with FailOnHTTPError := false } resp404
      (by decide)).2.1 rfl rfl,
   (readResponse_status_policy defaultAgentOptionsRecord
      { resp404 with bodyReadErr := some (GoError.plain "peer reset") }
      (by decide)).2.2.1 (GoError.plain "peer reset") rfl,
   (readResponse_status_policy defaultAgentOptionsRecord resp404
      (by decide)).2.2.2 (fun _ => (some resp404, none)) (by decide) rfl rfl⟩

/-- `io.Copy` in `readResponse` always delivers the readable body bytes to
the sink, whatever the status/flag outcome. -/
theorem readResponse_fst (opts : agentOptions) (r : Response) (w : List Nat) :
    (readResponse opts r w).1 = w ++ r.body := by
  unfold readResponse
  split
  · rfl
  · split
    · split
      · rfl
      · rfl
    · rfl

/-- The routing loop touches error slots only at indices ≥ the current
absolute index. -/
theorem routeAux_errors_lower (opts : agentOptions) (nw : Nat) :
    ∀ (rs : List (Option Response)) (i : Nat) (ws : List (List Nat))
      (es : List (Option GoError)) (j : Nat), j < i →
      (routeAux opts nw i rs ws es).2[j]? = es[j]? := by
  intro rs
  induction rs with
  | nil => intro i ws es j _; rfl
  | cons hd rest ih =>
      intro i ws es j hj
      cases hd with
      | none => exact ih (i + 1) ws es j (by omega)
      | some r =>
          simp only [routeAux]
          split
          · split
            · exact (ih (i + 1) _ _ j (by omega)).trans
                (List.getElem?_set_ne (by omega))
            · exact ih (i + 1) _ _ j (by omega)
          · split
            · exact (ih (i + 1) _ _ j (by omega)).trans
                (List.getElem?_set_ne (by omega))
            · split
              · exact (ih (i + 1) _ _ j (by omega)).trans
                  (List.getElem?_set_ne (by omega))
              · exact ih (i + 1) _ _ j (by omega)

/-- In multi-writer mode the routing loop touches writer slots only at
indices ≥ the current absolute index. -/
theorem routeAux_writers_lower (opts : agentOptions) (nw : Nat) (hnw : nw ≠ 1) :
    ∀ (rs : List (Option Response)) (i : Nat) (ws : List (List Nat))
      (es : List (Option GoError)) (j : Nat), j < i →
      (routeAux opts nw i rs ws es).1[j]? = ws[j]? := by
  intro rs
  induction rs with
  | nil => intro i ws es j _; rfl
  | cons hd rest ih =>
      intro i ws es j hj
      cases hd with
      | none => exact ih (i + 1) ws es j (by omega)
      | some r =>
          simp only [routeAux, if_neg hnw]
          split
          · exact ih (i + 1) _ _ j (by omega)
          · split
            · exact (ih (i + 1) _ _ j (by omega)).trans
                (List.getElem?_set_ne (by omega))
            · exact (ih (i + 1) _ _ j (by omega)).trans
                (List.getElem?_set_ne (by omega))

/-- Single-writer mode: the sink ends up holding its prior contents followed
by the bodies of all present responses, in input order. -/
theorem routeAux_single_writer (opts : agentOptions) :
    ∀ (rs : List (Option Response)) (i : Nat) (w0 : List Nat)
      (es : List (Option GoError)),
      (routeAux opts 1 i rs [w0] es).1 = [w0 ++ concatBodies rs] := by
  intro rs
  induction rs with
  | nil => intro i w0 es; simp [routeAux, concatBodies]
  | cons hd rest ih =>
      intro i w0 es
      cases hd with
      | none =>
          have h := ih (i + 1) w0 es
          simpa [routeAux, concatBodies] using h
      | some r =>
          have hset : ([w0].set 0 (readResponse opts r ([w0].getD 0 [])).1) =
              [w0 ++ r.body] := by
            rw [readResponse_fst]
            rfl
          simp only [routeAux, eq_self_iff_true, if_true, hset]
          split
          · rw [ih (i + 1) (w0 ++ r.body)]
            simp [concatBodies]
          · rw [ih (i + 1) (w0 ++ r.body)]
            simp [concatBodies]

theorem getD_set_ne {α : Type} (l : List α) (i j : Nat) (v d : α) (h : i ≠ j) :
    (l.set i v).getD j d = l.getD j d := by
  simp [List.getD_eq_getElem?_getD, List.getElem?_set_ne h]

/-- Multi-writer mode: a present response at absolute index `i + p` within
the writer range is appended to exactly its own writer. -/
theorem routeAux_multi_writes (opts : agentOptions) (nw : Nat) (hnw : nw ≠ 1) :
    ∀ (rs : List (Option Response)) (i : Nat) (ws : List (List Nat))
      (es : List (Option GoError)) (p : Nat) (r : Response),
      ws.length = nw → rs[p]? = some (some r) → i + p < nw →
      (routeAux opts nw i rs ws es).1[i + p]? =
        some (ws.getD (i + p) [] ++ r.body) := by
  intro rs
  induction rs with
  | nil => intro i ws es p r _ hp _; simp at hp
  | cons hd rest ih =>
      intro i ws es p r hws hp hlt
      cases hd with
      | none =>
          cases p with
          | zero => simp at hp
          | succ q =>
              have hp' : rest[q]? = some (some r) := by simpa using hp
              have hidx : i + (q + 1) = i + 1 + q := by omega
              rw [hidx]
              exact ih (i + 1) ws es q r hws hp' (by omega)
      | some r0 =>
          simp only [routeAux, if_neg hnw]
          cases p with
          | zero =>
              have hir : ¬ nw ≤ i := by omega
              have hr0 : r0 = r := by simpa using hp
              subst hr0
              rw [if_neg hir]
              have hi1 : i < ws.length := by omega
              simp only [Nat.add_zero]
              split
              · rw [routeAux_writers_lower opts nw hnw rest (i + 1) _ _ i (by omega),
                  List.getElem?_set_self hi1, readResponse_fst]
              · rw [routeAux_writers_lower opts nw hnw rest (i + 1) _ _ i (by omega),
                  List.getElem?_set_self hi1, readResponse_fst]
          | succ q =>
              have hp' : rest[q]? = some (some r) := by simpa using hp
              have hidx : i + (q + 1) = i + 1 + q := by omega
              by_cases hir : nw ≤ i
              · rw [if_pos hir, hidx]
                exact ih (i + 1) ws _ q r hws hp' (by omega)
              · rw [if_neg hir]
                have hws1 : (ws.set i (readResponse opts r0 (ws.getD i [])).1).length = nw := by
                  rw [List.length_set, hws]
                have hgd : (ws.set i (readResponse opts r0 (ws.getD i [])).1).getD
                    (i + 1 + q) [] = ws.getD (i + 1 + q) [] :=
                  getD_set_ne _ _ _ _ _ (by omega)
                split
                · rw [hidx]
                  rw [ih (i + 1) _ _ q r hws1 hp' (by omega), hgd]
                · rw [hidx]
                  rw [ih (i + 1) _ _ q r hws1 hp' (by omega), hgd]

/-- Multi-writer mode: a present response at an index past the writers gets
the "no writer defined" error in its own error slot. -/
theorem routeAux_no_writer (opts : agentOptions) (nw : Nat) (hnw : nw ≠ 1) :
    ∀ (rs : List (Option Response)) (i : Nat) (ws : List (List Nat))
      (es : List (Option GoError)) (p : Nat) (r : Response),
      rs[p]? = some (some r) → nw ≤ i + p → i + p < es.length →
      (routeAux opts nw i rs ws es).2[i + p]? =
        some (some (writingGroupError (i + p) (noWriterError (i + p)))) := by
  intro rs
  induction rs with
  | nil => intro i ws es p r hp _ _; simp at hp
  | cons hd rest ih =>
      intro i ws es p r hp hge hlen
      cases hd with
      | none =>
          cases p with
          | zero => simp at hp
          | succ q =>
              have hp' : rest[q]? = some (some r) := by simpa using hp
              have hidx : i + (q + 1) = i + 1 + q := by omega
              rw [hidx]
              exact ih (i + 1) ws es q r hp' (by omega) (by omega)
      | some r0 =>
          simp only [routeAux, if_neg hnw]
          cases p with
          | zero =>
              have hir : nw ≤ i := by omega
              rw [if_pos hir]
              simp only [Nat.add_zero]
              have hes : i < es.length := by omega
              rw [routeAux_errors_lower opts nw rest (i + 1) _ _ i (by omega),
                List.getElem?_set_self hes]
          | succ q =>
              have hp' : rest[q]? = some (some r) := by simpa using hp
              have hidx : i + (q + 1) = i + 1 + q := by omega
              by_cases hir : nw ≤ i
              · rw [if_pos hir, hidx]
                exact ih (i + 1) ws _ q r hp' (by omega)
                  (by rw [List.length_set]; omega)
              · rw [if_neg hir]
                split
                · rw [hidx]
                  exact ih (i + 1) _ _ q r hp' (by omega)
                    (by rw [List.length_set]; omega)
                · rw [hidx]
                  exact ih (i + 1) _ _ q r hp' (by omega) (by omega)

/-- An absent response leaves its error slot exactly as the dispatch left
it, in either writer mode. -/
theorem routeAux_skip_absent (opts : agentOptions) (nw : Nat) :
    ∀ (rs : List (Option Response)) (i : Nat) (ws : List (List Nat))
      (es : List (Option GoError)) (p : Nat),
      rs[p]? = some none →
      (routeAux opts nw i rs ws es).2[i + p]? = es[i + p]? := by
  intro rs
  induction rs with
  | nil => intro i ws es p hp; simp at hp
  | cons hd rest ih =>
      intro i ws es p hp
      cases hd with
      | none =>
          cases p with
          | zero =>
              rw [Nat.add_zero]
              exact routeAux_errors_lower opts nw rest (i + 1) ws es i (by omega)
          | succ q =>
              have hp' : rest[q]? = some none := by simpa using hp
              have hidx : i + (q + 1) = i + 1 + q := by omega
              rw [hidx]
              exact ih (i + 1) ws es q hp'
      | some r0 =>
          cases p with
          | zero => simp at hp
          | succ q =>
              have hp' : rest[q]? = some none := by simpa using hp
              have hidx : i + (q + 1) = i + 1 + q := by omega
              rw [hidx]
              simp only [routeAux]
              split
              · split
                · rw [ih (i + 1) _ _ q hp', List.getElem?_set_ne (by omega)]
                · rw [ih (i + 1) _ _ q hp']
              · split
                · rw [ih (i + 1) _ _ q hp', List.getElem?_set_ne (by omega)]
                · split
                  · rw [ih (i + 1) _ _ q hp', List.getElem?_set_ne (by omega)]
                  · rw [ih (i + 1) _ _ q hp']

/-- C7: the writer router of `GetToWriterGroup`/`PostToWriterGroup`. With
exactly one writer, every present response is read into it sequentially in
input-index order, so the sink holds the concatenation of the response
bodies in input order. With more than one writer, response `i` goes to
writer `i`; a present response at an index past the writers gets a
"no writer defined" error in its own slot without disturbing other
routings; an absent response leaves its error slot untouched. -/
theorem writer_routing (opts : agentOptions) (resps : List (Option Response))
    (errs : List (Option GoError)) :
    (∀ w0 : List Nat,
      (routeToWriterGroup opts [w0] resps errs).1 = [w0 ++ concatBodies resps]) ∧
    (∀ writers : List (List Nat), 2 ≤ writers.length →
      (∀ (j : Nat) (r : Response), resps[j]? = some (some r) → j < writers.length →
        (routeToWriterGroup opts writers resps errs).1[j]? =
          some (writers.getD j [] ++ r.body)) ∧
      (∀ (j : Nat) (r : Response), resps[j]? = some (some r) →
        writers.length ≤ j → j < errs.length →
        (routeToWriterGroup opts writers resps errs).2[j]? =
          some (some (writingGroupError j (noWriterError j)))) ∧
      (∀ j : Nat, resps[j]? = some none →
        (routeToWriterGroup opts writers resps errs).2[j]? = errs[j]?)) := by
  constructor
  · intro w0
    exact routeAux_single_writer opts resps 0 w0 errs
  · intro writers h2
    have hnw : writers.length ≠ 1 := by omega
    refine ⟨?_, ?_, ?_⟩
    · intro j r hj hjlt
      have h := routeAux_multi_writes opts writers.length hnw resps 0 writers
        errs j r rfl hj (by omega)
      simpa [routeToWriterGroup] using h
    · intro j r hj hge hlen
      have h := routeAux_no_writer opts writers.length hnw resps 0 writers
        errs j r hj (by omega) (by omega)
      simpa [routeToWriterGroup] using h
    · intro j hj
      have h := routeAux_skip_absent opts writers.length resps 0 writers errs j hj
      simpa [routeToWriterGroup] using h

/-- Witness for C7: one writer receives the concatenated bodies; with two
writers and three responses, slot 2 gets the "no writer defined" error while
the absent response at slot 1 leaves its error slot untouched. -/
theorem writer_routing_witness :
    ((routeToWriterGroup defaultAgentOptionsRecord [[7]]
        [some resp404, none] [none, none]).1 =
      [[7] ++ concatBodies [some resp404, none]]) ∧
    ((routeToWriterGroup defaultAgentOptionsRecord [[], []]
        [some resp404, none, some resp429] [none, none, none]).2[2]? =
      some (some (writingGroupError 2 (noWriterError 2)))) ∧
    ((routeToWriterGroup defaultAgentOptionsRecord [[], []]
        [some resp404, none, some resp429] [none, none, none]).2[1]? =
      ([none, none, none] : List (Option GoError))[1]?) :=
  ⟨(writer_routing defaultAgentOptionsRecord [some resp404, none] [none, none]).1 [7],
   ((writer_routing defaultAgentOptionsRecord [some resp404, none, some resp429]
      [none, none, none]).2 [[], []] (by decide)).2.1 2 resp429 rfl (by decide)
      (by decide),
   ((writer_routing defaultAgentOptionsRecord [some resp404, none, some resp429]
      [none, none, none]).2 [[], []] (by decide)).2.2 1 rfl⟩

end ReleaseUtilsHttp
